import Mathlib

/-!
# Ledger wallet service: a shallow embedding

This file embeds the core of the `ledger-wallet-service` repository
(`LedgerService`, `TransferService`, `FundingService`, `WalletService`,
`IdempotencyService` and the idempotency middleware) and proves the
specified properties about it.

Modelling conventions:
* The Postgres database is a `DB` value; each SQL statement of the source
  becomes a pure function on `DB`.  A transaction that rolls back returns
  the original `DB` unchanged.
* `gen_random_uuid()` / `uuidv4()` are modelled by a fresh-identifier
  counter `DB.nextId` (each generated identifier is `genUuid n` for a
  fresh `n`).
* Timestamps are natural numbers (hours); `NOW()` is an explicit `now`
  argument.
* Monetary amounts are `Int` (the columns are `BIGINT`; the service works
  in integer cents).  The `parseInt` round-trips through row strings are
  exact on this range and are not modelled.
* The database `CHECK`, `UNIQUE` and `FOREIGN KEY` constraints of the
  migration files are part of the model of an `INSERT`: an insert that
  violates one fails and the enclosing transaction rolls back.
-/

/-! ## JSON values

Request and response bodies are JSON.  A mutual inductive keeps all
recursion structural. -/

mutual

inductive Json where
  | null : Json
  | bool (b : Bool) : Json
  | num (n : Int) : Json
  | str (s : String) : Json
  | arr (xs : JsonList) : Json
  | obj (kvs : JsonObj) : Json
  deriving DecidableEq

inductive JsonList where
  | nil : JsonList
  | cons (head : Json) (tail : JsonList) : JsonList
  deriving DecidableEq

inductive JsonObj where
  | nil : JsonObj
  | cons (key : String) (value : Json) (tail : JsonObj) : JsonObj
  deriving DecidableEq

end

/-- Own enumerable keys of a JSON object, in insertion order
(`Object.keys`). -/
def JsonObj.keys : JsonObj → List String
  | .nil => []
  | .cons k _ t => k :: JsonObj.keys t

/-- `Object.keys(body)`: keys of an object; `[]` for non-objects
(request bodies are JSON objects). -/
def Json.topKeys : Json → List String
  | .obj kvs => kvs.keys
  | _ => []

/-- JSON string escaping for the characters that can occur in this
service's payloads (quote, backslash and the common control characters;
the general `\unnnn` case is not needed by any request modelled here). -/
def jsonEscapeChar (c : Char) : String :=
  if c = '"' then "\\\""
  else if c = '\\' then "\\\\"
  else if c = '\n' then "\\n"
  else if c = '\t' then "\\t"
  else if c = '\r' then "\\r"
  else String.singleton c

def jsonQuote (s : String) : String :=
  "\"" ++ String.join (s.toList.map jsonEscapeChar) ++ "\""

/-- Property lookup on a JSON object (abstract `Get`). -/
def JsonObj.get : JsonObj → String → Option Json
  | .nil, _ => none
  | .cons k v t, p => if k = p then some v else JsonObj.get t p

theorem JsonObj.sizeOf_get_lt : ∀ (kvs : JsonObj) (p : String) (v : Json),
    JsonObj.get kvs p = some v → sizeOf v < sizeOf kvs
  | .nil, _, _, h => by simp [JsonObj.get] at h
  | .cons k w t, p, v, h => by
    unfold JsonObj.get at h
    split at h
    · injection h with h
      subst h
      simp
      omega
    · have := JsonObj.sizeOf_get_lt t p v h
      simp
      omega

mutual

/-- `JSON.stringify(value, propertyList)` with an array replacer: at
EVERY nesting depth only the properties named in `props` are serialized
(ECMA-262 SerializeJSONObject with a PropertyList); array elements are
always serialized. -/
def stringifyWith (props : List String) : Json → String
  | .null => "null"
  | .bool true => "true"
  | .bool false => "false"
  | .num n => toString n
  | .str s => jsonQuote s
  | .arr xs => "[" ++ stringifyArr props xs ++ "]"
  | .obj kvs => "\x7b" ++ stringifyProps props props kvs ++ "\x7d"
termination_by j => (sizeOf j, 0)

def stringifyArr (props : List String) : JsonList → String
  | .nil => ""
  | .cons x .nil => stringifyWith props x
  | .cons x t => stringifyWith props x ++ "," ++ stringifyArr props t
termination_by xs => (sizeOf xs, 0)

/-- Walk the PropertyList; each listed property present on the object is
rendered, the rest of the object's properties are dropped. -/
def stringifyProps (props : List String) : List String → JsonObj → String
  | [], _ => ""
  | p :: ps, kvs =>
    match hv : JsonObj.get kvs p with
    | none => stringifyProps props ps kvs
    | some v =>
      have _hlt : sizeOf v < sizeOf kvs := JsonObj.sizeOf_get_lt kvs p v hv
      let item := jsonQuote p ++ ":" ++ stringifyWith props v
      let rest := stringifyProps props ps kvs
      if rest = "" then item else item ++ "," ++ rest
termination_by ps kvs => (sizeOf kvs, ps.length)

end

/-- Insertion of a string into a lexicographically sorted list. -/
def insertSorted (x : String) : List String → List String
  | [] => [x]
  | y :: ys => if x ≤ y then x :: y :: ys else y :: insertSorted x ys

/-- `Array.prototype.sort()` on strings: lexicographic sort. -/
def sortKeys (l : List String) : List String := l.foldr insertSorted []

/-- `crypto.createHash("sha256").update(s).digest("hex")` is an external
library primitive; it is modelled as an injective digest (the identity on
the normalized serialization), preserving exactly the property the
service uses: the fingerprint is a deterministic function of the
normalized request body. -/
def sha256Hex (s : String) : String := s

/-! ## Data model (models/, migrations/) -/

inductive LedgerDirection where
  | credit
  | debit
  deriving DecidableEq

structure LedgerEntry where
  id : String
  wallet_id : String
  amount : Int
  direction : LedgerDirection
  transaction_reference : String
  transfer_id : Option String
  external_payment_ref : Option String
  created_at : Nat
  deriving DecidableEq

inductive TransferStatus where
  | pending
  | completed
  | failed
  deriving DecidableEq

structure Transfer where
  id : String
  sender_wallet_id : String
  receiver_wallet_id : String
  amount : Int
  status : TransferStatus
  created_at : Nat
  deriving DecidableEq

structure IdempotencyKeyRow where
  key : String
  request_hash : String
  response_status : Nat
  response_body : Json
  created_at : Nat
  expires_at : Nat
  deriving DecidableEq

/-- The database: the five relations of the migrations (`users` is not
needed by any claim; a wallet is represented by its id). -/
structure DB where
  wallets : List String
  entries : List LedgerEntry
  transfers : List Transfer
  idempotency_keys : List IdempotencyKeyRow
  nextId : Nat
  deriving DecidableEq

def DB.empty : DB := ⟨[], [], [], [], 0⟩

/-- Fresh identifier source modelling `gen_random_uuid()` / `uuidv4()`. -/
def genUuid (n : Nat) : String := "uuid-" ++ toString n

/-! ## LedgerService -/

/-- SQL `SUM` aggregate: `NULL` (`none`) over an empty input set. -/
def sqlSum (rows : List Int) : Option Int :=
  match rows with
  | [] => none
  | _ => some rows.sum

/-- SQL `COALESCE(x, 0)`. -/
def coalesce0 (x : Option Int) : Int := x.getD 0

/-- `LedgerService.getBalance`: the aggregation query
`COALESCE(SUM(amount) FILTER (WHERE direction = 'credit'), 0) -
 COALESCE(SUM(amount) FILTER (WHERE direction = 'debit'), 0)`
over `ledger_entries WHERE wallet_id = $1`. -/
def LedgerService.getBalance (db : DB) (walletId : String) : Int :=
  let rows := db.entries.filter (fun e => e.wallet_id = walletId)
  coalesce0 (sqlSum ((rows.filter (fun e => e.direction = .credit)).map (·.amount))) -
    coalesce0 (sqlSum ((rows.filter (fun e => e.direction = .debit)).map (·.amount)))

/-- Modelled from the spec: `balance(W) = Σ amount over credits(W) − Σ
amount over debits(W)`, computed over all LedgerEntry rows for W.  Used
only to compare the source's aggregation against the spec's words. -/
def specBalance (db : DB) (walletId : String) : Int :=
  (((db.entries.filter (fun e => e.wallet_id = walletId)).filter
      (fun e => e.direction = .credit)).map (·.amount)).sum -
    (((db.entries.filter (fun e => e.wallet_id = walletId)).filter
      (fun e => e.direction = .debit)).map (·.amount)).sum

/-- `IdempotencyService.hashRequest`:
`JSON.stringify(body, Object.keys(body).sort())` digested with sha256. -/
def IdempotencyService.hashRequest (body : Json) : String :=
  sha256Hex (stringifyWith (sortKeys body.topKeys) body)

/-! ## LedgerService.createEntry -/

structure CreateLedgerEntryInput where
  wallet_id : String
  amount : Int
  direction : LedgerDirection
  transaction_reference : String
  transfer_id : Option String := none
  external_payment_ref : Option String := none

inductive LedgerError where
  /-- `WalletNotFoundError(walletId)` raised by the service. -/
  | walletNotFound (walletId : String)
  /-- the `CHECK (amount > 0)` constraint of `ledger_entries` rejects the
  insert (a storage-layer error, not a domain error). -/
  | checkViolation
  /-- the `UNIQUE` constraint on `external_payment_ref` rejects the
  insert. -/
  | uniqueViolation
  deriving DecidableEq

/-- `LedgerService.createEntry`: wallet existence check
(`SELECT id FROM wallets WHERE id = $1`) and then the `INSERT` into
`ledger_entries`, subject to the table's constraints. -/
def LedgerService.createEntry (db : DB) (now : Nat)
    (input : CreateLedgerEntryInput) : DB × Except LedgerError LedgerEntry :=
  if input.wallet_id ∉ db.wallets then
    (db, .error (.walletNotFound input.wallet_id))
  else if input.amount ≤ 0 then
    -- CHECK (amount > 0) rejects the row; nothing is persisted
    (db, .error .checkViolation)
  else if input.external_payment_ref ≠ none ∧
      ∃ e ∈ db.entries, e.external_payment_ref = input.external_payment_ref then
    -- UNIQUE (external_payment_ref) rejects the row
    (db, .error .uniqueViolation)
  else
    let e : LedgerEntry :=
      ⟨genUuid db.nextId, input.wallet_id, input.amount, input.direction,
        input.transaction_reference, input.transfer_id,
        input.external_payment_ref, now⟩
    ({ db with entries := db.entries ++ [e], nextId := db.nextId + 1 }, .ok e)

/-- `LedgerService.findEntryByExternalPaymentRef`. -/
def LedgerService.findEntryByExternalPaymentRef (db : DB) (ref : String) :
    Option LedgerEntry :=
  db.entries.find? (fun e => e.external_payment_ref = some ref)

/-! ## TransferService -/

structure CreateTransferInput where
  sender_wallet_id : String
  receiver_wallet_id : String
  amount : Int

inductive TransferError where
  /-- `WalletNotFoundError(missingWalletId)`. -/
  | walletNotFound (walletId : String)
  /-- `InsufficientBalanceError`; the source formats the two amounts into
  the message string (`Available: $…, Required: $…`), so the error is a
  function of exactly these two values. -/
  | insufficientBalance (available required : Int)
  /-- a `CHECK (amount > 0)` constraint (on `transfers` and
  `ledger_entries`) rejects an insert; the transaction rolls back. -/
  | checkViolation
  deriving DecidableEq

/-- The two-element `[sender, receiver].sort()`: lexicographic order. -/
def sortedPair (a b : String) : String × String :=
  if a ≤ b then (a, b) else (b, a)

instance instDecEqExcept {ε α : Type} [DecidableEq ε] [DecidableEq α] :
    DecidableEq (Except ε α) := fun a b =>
  match a, b with
  | .error e, .error f =>
    if h : e = f then .isTrue (by rw [h])
    else .isFalse (fun c => h (Except.error.inj c))
  | .ok x, .ok y =>
    if h : x = y then .isTrue (by rw [h])
    else .isFalse (fun c => h (Except.ok.inj c))
  | .error _, .ok _ => .isFalse (fun c => Except.noConfusion c)
  | .ok _, .error _ => .isFalse (fun c => Except.noConfusion c)

structure TransferResult where
  /-- the database after `COMMIT` / `ROLLBACK`. -/
  db : DB
  /-- the wallet ids in the order their rows were locked
  (`SELECT … FOR UPDATE`). -/
  locks : List String
  result : Except TransferError Transfer
  deriving DecidableEq

/-- `TransferService.transfer`: one serializable transaction.  Sorted
lock acquisition, wallet existence check, balance check (the inline
aggregation query is the same query as `LedgerService.getBalance`),
insert of the pending transfer row, the two ledger entries, the status
update to `completed`, re-select and `COMMIT`; any failure rolls the
whole transaction back (`ROLLBACK` returns the original database).
The `balance === null` / `isNaN(balance)` guards of the source are
unreachable here: `COALESCE` makes the aggregate non-null and integer
parsing is exact in the model. -/
def TransferService.transfer (db : DB) (now : Nat)
    (input : CreateTransferInput) : TransferResult :=
  let sorted := sortedPair input.sender_wallet_id input.receiver_wallet_id
  let firstWalletId := sorted.1
  let secondWalletId := sorted.2
  let locks := [firstWalletId, secondWalletId]
  if firstWalletId ∉ db.wallets ∨ secondWalletId ∉ db.wallets then
    let missingWalletId :=
      if firstWalletId ∉ db.wallets then firstWalletId else secondWalletId
    ⟨db, locks, .error (.walletNotFound missingWalletId)⟩
  else
    let balance := LedgerService.getBalance db input.sender_wallet_id
    if balance < input.amount then
      ⟨db, locks, .error (.insufficientBalance balance input.amount)⟩
    else if input.amount ≤ 0 then
      -- CHECK (amount > 0) on the transfers insert aborts the transaction
      ⟨db, locks, .error .checkViolation⟩
    else
      let transferId := genUuid db.nextId
      let transactionReference := "transfer_" ++ transferId
      let debitEntry : LedgerEntry :=
        ⟨genUuid (db.nextId + 1), input.sender_wallet_id, input.amount,
          .debit, transactionReference, some transferId, none, now⟩
      let creditEntry : LedgerEntry :=
        ⟨genUuid (db.nextId + 2), input.receiver_wallet_id, input.amount,
          .credit, transactionReference, some transferId, none, now⟩
      let t : Transfer :=
        ⟨transferId, input.sender_wallet_id, input.receiver_wallet_id,
          input.amount, .completed, now⟩
      ⟨{ db with
          entries := db.entries ++ [debitEntry, creditEntry],
          transfers := db.transfers ++ [t],
          nextId := db.nextId + 3 },
        locks, .ok t⟩

/-! ## FundingService -/

structure FundWalletInput where
  walletId : String
  amount : Int
  externalPaymentRef : String

inductive FundingError where
  | duplicatePaymentRef (ref : String)
  | ledger (e : LedgerError)
  deriving DecidableEq

/-- `FundingService.fundWallet`: duplicate-reference guard, then a single
credit entry tagged `fund_<uuid>` and the external payment reference. -/
def FundingService.fundWallet (db : DB) (now : Nat) (input : FundWalletInput) :
    DB × Except FundingError LedgerEntry :=
  match LedgerService.findEntryByExternalPaymentRef db input.externalPaymentRef with
  | some _ => (db, .error (.duplicatePaymentRef input.externalPaymentRef))
  | none =>
    let transactionReference := "fund_" ++ genUuid db.nextId
    let db1 := { db with nextId := db.nextId + 1 }
    match LedgerService.createEntry db1 now
        { wallet_id := input.walletId, amount := input.amount,
          direction := .credit,
          transaction_reference := transactionReference,
          external_payment_ref := some input.externalPaymentRef } with
    | (db2, .ok e) => (db2, .ok e)
    | (db2, .error err) => (db2, .error (.ledger err))

/-! ## WalletService -/

/-- `AppError`: base error shape (message, HTTP status code, code). -/
structure AppError where
  message : String
  statusCode : Nat
  code : String
  deriving DecidableEq

/-- `UserNotFoundError` of `utils/errors.ts`. -/
def UserNotFoundError (userId : Option String) : AppError :=
  ⟨match userId with
    | some u => "User " ++ u ++ " not found"
    | none => "User not found",
    404, "USER_NOT_FOUND"⟩

/-- `WalletNotFoundError` of `utils/errors.ts`. -/
def WalletNotFoundError (walletId : Option String) : AppError :=
  ⟨match walletId with
    | some w => "Wallet " ++ w ++ " not found"
    | none => "Wallet not found",
    404, "WALLET_NOT_FOUND"⟩

/-- `WalletService.getBalance`: wallet existence check, then delegation
to `LedgerService.getBalance`; the missing-wallet branch throws
`UserNotFoundError(walletId)`. -/
def WalletService.getBalance (db : DB) (walletId : String) :
    Except AppError Int :=
  if walletId ∉ db.wallets then
    .error (UserNotFoundError (some walletId))
  else
    .ok (LedgerService.getBalance db walletId)

/-! ## IdempotencyService -/

/-- `IDEMPOTENCY_KEY_TTL` default. -/
def IdempotencyService.ttlHours : Nat := 24

inductive IdemError where
  | idempotencyKeyConflict
  deriving DecidableEq

/-- `IdempotencyService.getKey`:
`SELECT * FROM idempotency_keys WHERE key = $1 AND expires_at > NOW()`
(`key` is the primary key, so at most one row matches). -/
def IdempotencyService.getKey (db : DB) (now : Nat) (key : String) :
    Option IdempotencyKeyRow :=
  db.idempotency_keys.find? (fun r => decide (r.key = key ∧ now < r.expires_at))

/-- `IdempotencyService.storeKey`: `INSERT … ON CONFLICT (key) DO UPDATE
SET key = EXCLUDED.key RETURNING *` — a fresh key inserts a new row; an
existing key leaves the stored row untouched (its `key` column is
rewritten with the identical value) and returns it.  The returned row's
hash is then compared with the caller's `requestHash`. -/
def IdempotencyService.storeKey (db : DB) (now : Nat) (key : String)
    (requestHash : String) (responseStatus : Nat) (responseBody : Json) :
    DB × Except IdemError IdempotencyKeyRow :=
  let expiresAt := now + IdempotencyService.ttlHours
  let inserted :=
    match db.idempotency_keys.find? (fun r => decide (r.key = key)) with
    | some existing => (db, existing)
    | none =>
      let row : IdempotencyKeyRow :=
        ⟨key, requestHash, responseStatus, responseBody, now, expiresAt⟩
      ({ db with idempotency_keys := db.idempotency_keys ++ [row] }, row)
  if inserted.2.request_hash ≠ requestHash then
    (inserted.1, .error .idempotencyKeyConflict)
  else
    (inserted.1, .ok inserted.2)

/-- `IdempotencyService.checkAndGetResponse`. -/
def IdempotencyService.checkAndGetResponse (db : DB) (now : Nat)
    (key : String) (requestHash : String) :
    Except IdemError (Option (Nat × Json)) :=
  match IdempotencyService.getKey db now key with
  | none => .ok none
  | some existingKey =>
    if existingKey.request_hash ≠ requestHash then
      .error .idempotencyKeyConflict
    else
      .ok (some (existingKey.response_status, existingKey.response_body))

/-! ## Idempotency middleware (`middleware/idempotency.ts`) -/

/-- `idempotencyKeySchema`: non-empty string of at most 255 characters. -/
def validIdempotencyKey (k : String) : Bool :=
  1 ≤ k.length && k.length ≤ 255

def idemConflictBody : Json :=
  .obj (.cons "error" (.str "IDEMPOTENCY_KEY_CONFLICT")
    (.cons "message" (.str "Idempotency key exists but request does not match")
      .nil))

def idemValidationBody : Json :=
  .obj (.cons "error" (.str "VALIDATION_ERROR")
    (.cons "message" (.str "Invalid idempotency key") .nil))

structure GateResult where
  db : DB
  status : Nat
  body : Json
  /-- whether the wrapped route handler ran (instrumentation of
  `next()` reaching the handler). -/
  executed : Bool
  deriving DecidableEq

/-- `idempotencyMiddleware`: skip when no `Idempotency-Key` header is
present; validate the key; fingerprint the body; replay a cached
response; otherwise run the handler, tap its `res.status(...).json(...)`
and persist it with `storeKey`, whose failures are logged and swallowed
(the handler's response is returned regardless). -/
def idempotencyMiddleware (db : DB) (now : Nat)
    (idempotencyKey : Option String) (reqBody : Json)
    (handler : DB → DB × Nat × Json) : GateResult :=
  match idempotencyKey with
  | none =>
    let r := handler db
    ⟨r.1, r.2.1, r.2.2, true⟩
  | some key =>
    if ¬ validIdempotencyKey key then
      ⟨db, 400, idemValidationBody, false⟩
    else
      let requestHash := IdempotencyService.hashRequest reqBody
      match IdempotencyService.checkAndGetResponse db now key requestHash with
      | .error .idempotencyKeyConflict => ⟨db, 409, idemConflictBody, false⟩
      | .ok (some cached) => ⟨db, cached.1, cached.2, false⟩
      | .ok none =>
        let r := handler db
        let stored := IdempotencyService.storeKey r.1 now key requestHash r.2.1 r.2.2
        ⟨stored.1, r.2.1, r.2.2, true⟩


/-! ## Helper lemmas about balance derivation -/

theorem coalesce0_sqlSum (l : List Int) : coalesce0 (sqlSum l) = l.sum := by
  cases l <;> rfl

/-- Balance of a list of ledger entries (the aggregation, with the SQL
`NULL` plumbing removed). -/
def entriesBalance (l : List LedgerEntry) (w : String) : Int :=
  (((l.filter (fun e => e.wallet_id = w)).filter
      (fun e => e.direction = .credit)).map (·.amount)).sum -
    (((l.filter (fun e => e.wallet_id = w)).filter
      (fun e => e.direction = .debit)).map (·.amount)).sum

theorem getBalance_eq_entriesBalance (db : DB) (w : String) :
    LedgerService.getBalance db w = entriesBalance db.entries w := by
  simp only [LedgerService.getBalance, entriesBalance, coalesce0_sqlSum]

theorem entriesBalance_append (l₁ l₂ : List LedgerEntry) (w : String) :
    entriesBalance (l₁ ++ l₂) w = entriesBalance l₁ w + entriesBalance l₂ w := by
  simp only [entriesBalance, List.filter_append, List.map_append, List.sum_append]
  ring

theorem entriesBalance_single (e : LedgerEntry) (w : String) :
    entriesBalance [e] w =
      if e.wallet_id = w then
        (match e.direction with
          | .credit => e.amount
          | .debit => -e.amount)
      else 0 := by
  by_cases hw : e.wallet_id = w
  · cases hd : e.direction <;>
      simp [entriesBalance, List.filter, hw, hd]
  · simp [entriesBalance, List.filter, hw]

/-- Claim C2: `LedgerService.getBalance` returns exactly the sum of the
wallet's credit amounts minus the sum of its debit amounts, and returns 0
(an ordinary value, not an error) for a wallet with no entries. -/
theorem getBalance_is_credits_minus_debits (db : DB) (w : String) :
    LedgerService.getBalance db w = specBalance db w ∧
    (db.entries.filter (fun e => e.wallet_id = w) = [] →
      LedgerService.getBalance db w = 0) := by
  constructor
  · simp only [LedgerService.getBalance, specBalance, coalesce0_sqlSum]
  · intro h
    simp [LedgerService.getBalance, h, sqlSum, coalesce0]

theorem entriesBalance_nil (w : String) : entriesBalance [] w = 0 := rfl

theorem entriesBalance_cons (e : LedgerEntry) (l : List LedgerEntry) (w : String) :
    entriesBalance (e :: l) w =
      (if e.wallet_id = w then
        (match e.direction with
          | .credit => e.amount
          | .debit => -e.amount)
      else 0) + entriesBalance l w := by
  have h : e :: l = [e] ++ l := rfl
  rw [h, entriesBalance_append, entriesBalance_single]

/-- Outcome of one `TransferService.transfer` call: either the
transaction rolled back (database unchanged, an error returned), or it
committed with the sender debited and the receiver credited by a positive
amount not exceeding the sender's prior balance. -/
theorem transfer_characterization (db : DB) (now : Nat) (inp : CreateTransferInput) :
    ((TransferService.transfer db now inp).db = db ∧
      ∃ err, (TransferService.transfer db now inp).result = .error err) ∨
    (0 < inp.amount ∧
      inp.amount ≤ LedgerService.getBalance db inp.sender_wallet_id ∧
      ∀ w, LedgerService.getBalance (TransferService.transfer db now inp).db w =
        LedgerService.getBalance db w
          + (if inp.sender_wallet_id = w then -inp.amount else 0)
          + (if inp.receiver_wallet_id = w then inp.amount else 0)) := by
  simp only [TransferService.transfer]
  split_ifs
  all_goals
    first
      | exact Or.inl ⟨rfl, _, rfl⟩
      | (refine Or.inr ⟨by omega, by omega, fun w => ?_⟩
         simp only [getBalance_eq_entriesBalance]
         simp only [entriesBalance_append, entriesBalance_cons, entriesBalance_nil]
         ring)

/-- Outcome of one `FundingService.fundWallet` call: either no ledger
entry is written, or a single positive credit for the funded wallet is
appended. -/
theorem fund_characterization (db : DB) (now : Nat) (inp : FundWalletInput) :
    ((FundingService.fundWallet db now inp).1.entries = db.entries) ∨
    (0 < inp.amount ∧
      ∀ w, LedgerService.getBalance (FundingService.fundWallet db now inp).1 w =
        LedgerService.getBalance db w
          + (if inp.walletId = w then inp.amount else 0)) := by
  simp only [FundingService.fundWallet]
  cases hfind : LedgerService.findEntryByExternalPaymentRef db inp.externalPaymentRef with
  | some e => exact Or.inl rfl
  | none =>
    simp only [LedgerService.createEntry]
    split_ifs
    all_goals
      first
        | exact Or.inl rfl
        | (refine Or.inr ⟨by omega, fun w => ?_⟩
           simp only [getBalance_eq_entriesBalance]
           simp only [entriesBalance_append, entriesBalance_cons, entriesBalance_nil]
           ring)

/-- The committed states reachable from the empty database by wallet
creation (the wallet-insert of `WalletService.createUser`), funding and
transfer operations; a failed operation contributes the rolled-back
(unchanged) state. -/
inductive Reachable : DB → Prop where
  | init : Reachable DB.empty
  | createWallet (db : DB) (w : String) : Reachable db →
      Reachable { db with wallets := w :: db.wallets }
  | fund (db : DB) (now : Nat) (inp : FundWalletInput) : Reachable db →
      Reachable (FundingService.fundWallet db now inp).1
  | transferStep (db : DB) (now : Nat) (inp : CreateTransferInput) : Reachable db →
      Reachable (TransferService.transfer db now inp).db

theorem nonneg_of_entries_eq {db db' : DB} (h : db'.entries = db.entries)
    (hnn : ∀ w, 0 ≤ LedgerService.getBalance db w) :
    ∀ w, 0 ≤ LedgerService.getBalance db' w := by
  intro w
  rw [getBalance_eq_entriesBalance, h, ← getBalance_eq_entriesBalance]
  exact hnn w

theorem transfer_preserves_nonneg {db : DB} (now : Nat) (inp : CreateTransferInput)
    (hnn : ∀ w, 0 ≤ LedgerService.getBalance db w) :
    ∀ w, 0 ≤ LedgerService.getBalance (TransferService.transfer db now inp).db w := by
  rcases transfer_characterization db now inp with ⟨hdb, _⟩ | ⟨hpos, hle, hbal⟩
  · intro w
    rw [hdb]
    exact hnn w
  · intro w
    rw [hbal w]
    have h1 := hnn w
    rcases eq_or_ne inp.sender_wallet_id w with hs | hs
    · rcases eq_or_ne inp.receiver_wallet_id w with hr | hr
      · rw [if_pos hs, if_pos hr]
        omega
      · rw [if_pos hs, if_neg hr]
        rw [hs] at hle
        omega
    · rw [if_neg hs]
      rcases eq_or_ne inp.receiver_wallet_id w with hr | hr
      · rw [if_pos hr]
        omega
      · rw [if_neg hr]
        omega

theorem fund_preserves_nonneg {db : DB} (now : Nat) (inp : FundWalletInput)
    (hnn : ∀ w, 0 ≤ LedgerService.getBalance db w) :
    ∀ w, 0 ≤ LedgerService.getBalance (FundingService.fundWallet db now inp).1 w := by
  rcases fund_characterization db now inp with hent | ⟨hpos, hbal⟩
  · exact nonneg_of_entries_eq hent hnn
  · intro w
    rw [hbal w]
    have h1 := hnn w
    by_cases hw : inp.walletId = w
    · simp only [hw, if_pos rfl]
      omega
    · simp only [if_neg hw]
      omega

/-- Claim C1: every committed state reachable by funding and transfer
operations keeps every wallet's derived balance non-negative, and a
transfer whose amount exceeds the sender's derived balance leaves the
database (in particular the ledger) unchanged — the unit of work rolls
back. -/
theorem balance_nonneg_invariant :
    (∀ db, Reachable db → ∀ w, 0 ≤ LedgerService.getBalance db w) ∧
    (∀ (db : DB) (now : Nat) (inp : CreateTransferInput),
      LedgerService.getBalance db inp.sender_wallet_id < inp.amount →
        (TransferService.transfer db now inp).db = db) := by
  constructor
  · intro db h
    induction h with
    | init =>
      intro w
      simp [LedgerService.getBalance, DB.empty, sqlSum, coalesce0]
    | createWallet db w _ ih =>
      exact fun w' => ih w'
    | fund db now inp _ ih =>
      exact fund_preserves_nonneg now inp ih
    | transferStep db now inp _ ih =>
      exact transfer_preserves_nonneg now inp ih
  · intro db now inp h
    simp only [TransferService.transfer]
    split_ifs
    all_goals rfl

/-! ## Sample data for witnesses -/

/-- A wallet `w1` funded with 10000 (external reference `p1`), and an
empty wallet `w2`. -/
def sampleEntry : LedgerEntry := ⟨"e0", "w1", 10000, .credit, "fund_a", none, some "p1", 0⟩

def sampleDB : DB := ⟨["w1", "w2"], [sampleEntry], [], [], 5⟩

theorem balance_nonneg_invariant_witness :
    (0 ≤ LedgerService.getBalance DB.empty "w1") ∧
    (TransferService.transfer sampleDB 7 ⟨"w1", "w2", 20000⟩).db = sampleDB :=
  ⟨balance_nonneg_invariant.1 DB.empty .init "w1",
   balance_nonneg_invariant.2 sampleDB 7 ⟨"w1", "w2", 20000⟩ (by decide)⟩

theorem getBalance_is_credits_minus_debits_witness :
    LedgerService.getBalance sampleDB "w9" = specBalance sampleDB "w9" ∧
    LedgerService.getBalance sampleDB "w9" = 0 :=
  ⟨(getBalance_is_credits_minus_debits sampleDB "w9").1,
   (getBalance_is_credits_minus_debits sampleDB "w9").2 (by decide)⟩

/-! ## Successful transfers (C3) -/

/-- Claim C3: a transfer for which both wallets exist, the wallets are
distinct (the route schema rejects self-transfers before the service
runs) and the sender's derived balance covers the positive amount,
appends exactly one debit for the sender and one credit for the receiver
— both for the same amount, both tagged with the transfer's id and with
the transaction reference derived from it — returns a `completed`
Transfer, decreases the sender's balance by the amount and increases the
receiver's by it. -/
theorem transfer_success_shape (db : DB) (now : Nat) (inp : CreateTransferInput)
    (hs : inp.sender_wallet_id ∈ db.wallets)
    (hr : inp.receiver_wallet_id ∈ db.wallets)
    (hne : inp.sender_wallet_id ≠ inp.receiver_wallet_id)
    (hpos : 0 < inp.amount)
    (hbal : inp.amount ≤ LedgerService.getBalance db inp.sender_wallet_id) :
    ∃ t : Transfer,
      (TransferService.transfer db now inp).result = .ok t ∧
      t.status = .completed ∧
      t.amount = inp.amount ∧
      t.sender_wallet_id = inp.sender_wallet_id ∧
      t.receiver_wallet_id = inp.receiver_wallet_id ∧
      (∃ d c : LedgerEntry,
        (TransferService.transfer db now inp).db.entries = db.entries ++ [d, c] ∧
        d.direction = .debit ∧ d.wallet_id = inp.sender_wallet_id ∧
        d.amount = inp.amount ∧ d.transfer_id = some t.id ∧
        d.transaction_reference = "transfer_" ++ t.id ∧
        c.direction = .credit ∧ c.wallet_id = inp.receiver_wallet_id ∧
        c.amount = inp.amount ∧ c.transfer_id = some t.id ∧
        c.transaction_reference = "transfer_" ++ t.id) ∧
      LedgerService.getBalance (TransferService.transfer db now inp).db
          inp.sender_wallet_id =
        LedgerService.getBalance db inp.sender_wallet_id - inp.amount ∧
      LedgerService.getBalance (TransferService.transfer db now inp).db
          inp.receiver_wallet_id =
        LedgerService.getBalance db inp.receiver_wallet_id + inp.amount := by
  have hw : ¬ ((sortedPair inp.sender_wallet_id inp.receiver_wallet_id).1 ∉ db.wallets ∨
      (sortedPair inp.sender_wallet_id inp.receiver_wallet_id).2 ∉ db.wallets) := by
    unfold sortedPair
    split_ifs <;> simp [hs, hr]
  simp only [TransferService.transfer]
  rw [if_neg hw, if_neg (not_lt.mpr hbal), if_neg (by omega : ¬ inp.amount ≤ 0)]
  refine ⟨_, rfl, rfl, rfl, rfl, rfl,
    ⟨_, _, rfl, rfl, rfl, rfl, rfl, rfl, rfl, rfl, rfl, rfl, rfl⟩, ?_, ?_⟩
  · simp only [getBalance_eq_entriesBalance, entriesBalance_append,
      entriesBalance_cons, entriesBalance_nil]
    simp [Ne.symm hne]
    try ring
  · simp only [getBalance_eq_entriesBalance, entriesBalance_append,
      entriesBalance_cons, entriesBalance_nil]
    simp [hne]
    try ring

theorem transfer_success_shape_witness :
    ∃ t : Transfer,
      (TransferService.transfer sampleDB 7 ⟨"w1", "w2", 3000⟩).result = .ok t ∧
      t.status = .completed ∧
      LedgerService.getBalance (TransferService.transfer sampleDB 7 ⟨"w1", "w2", 3000⟩).db "w1" =
        LedgerService.getBalance sampleDB "w1" - 3000 ∧
      LedgerService.getBalance (TransferService.transfer sampleDB 7 ⟨"w1", "w2", 3000⟩).db "w2" =
        LedgerService.getBalance sampleDB "w2" + 3000 := by
  obtain ⟨t, h1, h2, _, _, _, _, h3, h4⟩ :=
    transfer_success_shape sampleDB 7 ⟨"w1", "w2", 3000⟩
      (by decide) (by decide) (by decide) (by decide) (by decide)
  exact ⟨t, h1, h2, h3, h4⟩

/-! ## InsufficientBalance (C4) -/

/-- Claim C4: for existing, distinct wallets a transfer raises
`InsufficientBalance` exactly when the sender's derived balance is
strictly below the requested amount; the raised error carries the
available balance and the required amount (the source formats exactly
these two values into the message), and nothing is written — the
database is unchanged. -/
theorem transfer_insufficient_iff (db : DB) (now : Nat) (inp : CreateTransferInput)
    (hs : inp.sender_wallet_id ∈ db.wallets)
    (hr : inp.receiver_wallet_id ∈ db.wallets)
    (_hne : inp.sender_wallet_id ≠ inp.receiver_wallet_id) :
    ((∃ a b, (TransferService.transfer db now inp).result =
        .error (.insufficientBalance a b)) ↔
      LedgerService.getBalance db inp.sender_wallet_id < inp.amount) ∧
    (LedgerService.getBalance db inp.sender_wallet_id < inp.amount →
      (TransferService.transfer db now inp).db = db ∧
      (TransferService.transfer db now inp).result =
        .error (.insufficientBalance
          (LedgerService.getBalance db inp.sender_wallet_id) inp.amount)) := by
  have hw : ¬ ((sortedPair inp.sender_wallet_id inp.receiver_wallet_id).1 ∉ db.wallets ∨
      (sortedPair inp.sender_wallet_id inp.receiver_wallet_id).2 ∉ db.wallets) := by
    unfold sortedPair
    split_ifs <;> simp [hs, hr]
  simp only [TransferService.transfer]
  rw [if_neg hw]
  by_cases hlt : LedgerService.getBalance db inp.sender_wallet_id < inp.amount
  · rw [if_pos hlt]
    exact ⟨⟨fun _ => hlt, fun _ => ⟨_, _, rfl⟩⟩, fun _ => ⟨rfl, rfl⟩⟩
  · rw [if_neg hlt]
    by_cases hz : inp.amount ≤ 0
    · rw [if_pos hz]
      refine ⟨⟨?_, fun h => absurd h hlt⟩, fun h => absurd h hlt⟩
      rintro ⟨a, b, hres⟩
      simp at hres
    · rw [if_neg hz]
      refine ⟨⟨?_, fun h => absurd h hlt⟩, fun h => absurd h hlt⟩
      rintro ⟨a, b, hres⟩
      simp at hres

theorem transfer_insufficient_iff_witness :
    (TransferService.transfer sampleDB 7 ⟨"w1", "w2", 20000⟩).db = sampleDB ∧
    (TransferService.transfer sampleDB 7 ⟨"w1", "w2", 20000⟩).result =
      .error (.insufficientBalance 10000 20000) := by
  have h := (transfer_insufficient_iff sampleDB 7 ⟨"w1", "w2", 20000⟩
    (by decide) (by decide) (by decide)).2 (by decide)
  have hbal : LedgerService.getBalance sampleDB "w1" = 10000 := by decide
  refine ⟨h.1, ?_⟩
  rw [← hbal]
  exact h.2

/-! ## Lock ordering (C5) -/

/-- Claim C5: the two wallet row locks are acquired in the sorted
(lexicographic) order of the wallet ids — the smaller id first —
regardless of which wallet is the sender and which the receiver. -/
theorem transfer_locks_sorted (db : DB) (now : Nat) (s r : String) (a : Int) :
    (TransferService.transfer db now ⟨s, r, a⟩).locks =
      (TransferService.transfer db now ⟨r, s, a⟩).locks ∧
    ∃ x y, (TransferService.transfer db now ⟨s, r, a⟩).locks = [x, y] ∧
      x ≤ y ∧ ((x = s ∧ y = r) ∨ (x = r ∧ y = s)) := by
  have hlocks : ∀ (db : DB) (now : Nat) (inp : CreateTransferInput),
      (TransferService.transfer db now inp).locks =
        [(sortedPair inp.sender_wallet_id inp.receiver_wallet_id).1,
          (sortedPair inp.sender_wallet_id inp.receiver_wallet_id).2] := by
    intro db now inp
    simp only [TransferService.transfer]
    split_ifs <;> rfl
  rw [hlocks, hlocks]
  constructor
  · unfold sortedPair
    by_cases h1 : (s : String) ≤ r
    · by_cases h2 : (r : String) ≤ s
      · have h3 : s = r := le_antisymm h1 h2
        subst h3
        rfl
      · rw [if_pos h1, if_neg h2]
    · have h2 : (r : String) ≤ s := le_of_not_le h1
      rw [if_neg h1, if_pos h2]
  · by_cases h1 : (s : String) ≤ r
    · refine ⟨s, r, ?_, h1, Or.inl ⟨rfl, rfl⟩⟩
      unfold sortedPair
      rw [if_pos h1]
    · refine ⟨r, s, ?_, le_of_not_le h1, Or.inr ⟨rfl, rfl⟩⟩
      unfold sortedPair
      rw [if_neg h1]

/-! ## Idempotency store (C7) -/

theorem find?_append_of_forall_not {α : Type} (l1 l2 : List α) (p : α → Bool)
    (h : ∀ x ∈ l1, ¬ p x = true) : (l1 ++ l2).find? p = l2.find? p := by
  induction l1 with
  | nil => rfl
  | cons a t ih =>
    rw [List.cons_append,
      List.find?_cons_of_neg _ (h a (List.mem_cons_self a t)),
      ih (fun x hx => h x (List.mem_cons_of_mem a hx))]

/-- Claim C7: `storeKey` inserts and returns a new row when the key is
fresh; when a row for the key already exists, the stored row is left
untouched (first-writer-wins), and the existing row's hash is compared
with the caller's: a mismatch raises `IdempotencyKeyConflict`, a match
returns the first writer's stored row. -/
theorem storeKey_first_writer_wins (db : DB) (now : Nat) (k rh : String)
    (st : Nat) (b : Json) :
    (db.idempotency_keys.find? (fun r => decide (r.key = k)) = none →
      IdempotencyService.storeKey db now k rh st b =
        ({ db with idempotency_keys := db.idempotency_keys ++
            [⟨k, rh, st, b, now, now + IdempotencyService.ttlHours⟩] },
          .ok ⟨k, rh, st, b, now, now + IdempotencyService.ttlHours⟩)) ∧
    (∀ row, db.idempotency_keys.find? (fun r => decide (r.key = k)) = some row →
      ((row.request_hash ≠ rh →
        IdempotencyService.storeKey db now k rh st b =
          (db, .error .idempotencyKeyConflict)) ∧
       (row.request_hash = rh →
        IdempotencyService.storeKey db now k rh st b = (db, .ok row)))) := by
  constructor
  · intro hnone
    simp only [IdempotencyService.storeKey, hnone]
    rw [if_neg (by simp)]
  · intro row hrow
    constructor
    · intro hne
      simp only [IdempotencyService.storeKey, hrow]
      rw [if_pos hne]
    · intro heq
      simp only [IdempotencyService.storeKey, hrow]
      rw [if_neg (by simp [heq])]

def idemRow1 : IdempotencyKeyRow := ⟨"key-1", "hashA", 201, Json.null, 0, 24⟩

def idemDB : DB := ⟨[], [], [], [idemRow1], 0⟩

theorem storeKey_first_writer_wins_witness :
    (IdempotencyService.storeKey DB.empty 0 "key-1" "hashA" 201 Json.null =
      ({ DB.empty with
          idempotency_keys := [⟨"key-1", "hashA", 201, Json.null, 0, 24⟩] },
        .ok ⟨"key-1", "hashA", 201, Json.null, 0, 24⟩)) ∧
    (IdempotencyService.storeKey idemDB 5 "key-1" "hashB" 200 Json.null =
      (idemDB, .error .idempotencyKeyConflict)) ∧
    (IdempotencyService.storeKey idemDB 5 "key-1" "hashA" 200 Json.null =
      (idemDB, .ok idemRow1)) := by
  refine ⟨?_, ?_, ?_⟩
  · exact (storeKey_first_writer_wins DB.empty 0 "key-1" "hashA" 201 Json.null).1 rfl
  · exact ((storeKey_first_writer_wins idemDB 5 "key-1" "hashB" 200 Json.null).2
      idemRow1 rfl).1 (by decide)
  · exact ((storeKey_first_writer_wins idemDB 5 "key-1" "hashA" 200 Json.null).2
      idemRow1 rfl).2 rfl

/-! ## Idempotent replay (C6) -/

/-- A cache hit: a stored, unexpired row whose hash matches the request
fingerprint is replayed verbatim and the handler does not run. -/
theorem gate_hit (db2 : DB) (now2 : Nat) (k : String) (body : Json)
    (handler : DB → DB × Nat × Json) (row : IdempotencyKeyRow)
    (hget : IdempotencyService.getKey db2 now2 k = some row)
    (hvalid : validIdempotencyKey k = true)
    (hhash : row.request_hash = IdempotencyService.hashRequest body) :
    idempotencyMiddleware db2 now2 (some k) body handler =
      ⟨db2, row.response_status, row.response_body, false⟩ := by
  simp [idempotencyMiddleware, IdempotencyService.checkAndGetResponse,
    hget, hvalid, hhash]

/-- Claim C6: once a keyed request has succeeded (the handler ran and its
response was stored under the key), every replay of the same key with an
identical body while the stored key is unexpired returns exactly the
stored response — same status, same body — without running the handler
again and without changing the database, so the operation's ledger
entries exist exactly once however often the request is replayed. -/
theorem gate_replay (db : DB) (now now2 : Nat) (k : String) (body : Json)
    (handler : DB → DB × Nat × Json)
    (hfresh : ∀ row ∈ db.idempotency_keys, row.key ≠ k)
    (hvalid : validIdempotencyKey k = true)
    (hhandler : (handler db).1.idempotency_keys = db.idempotency_keys)
    (hexp : now2 < now + IdempotencyService.ttlHours) :
    (idempotencyMiddleware db now (some k) body handler).executed = true ∧
    idempotencyMiddleware (idempotencyMiddleware db now (some k) body handler).db
        now2 (some k) body handler =
      ⟨(idempotencyMiddleware db now (some k) body handler).db,
        (idempotencyMiddleware db now (some k) body handler).status,
        (idempotencyMiddleware db now (some k) body handler).body, false⟩ := by
  have hget1 : IdempotencyService.getKey db now k = none := by
    unfold IdempotencyService.getKey
    rw [List.find?_eq_none]
    intro r hr
    simp [hfresh r hr]
  have hfind : (handler db).1.idempotency_keys.find?
      (fun r => decide (r.key = k)) = none := by
    rw [hhandler, List.find?_eq_none]
    intro r hr
    simp [hfresh r hr]
  have hg1 : idempotencyMiddleware db now (some k) body handler =
      ⟨{ (handler db).1 with idempotency_keys :=
          (handler db).1.idempotency_keys ++
            [⟨k, IdempotencyService.hashRequest body, (handler db).2.1,
              (handler db).2.2, now, now + IdempotencyService.ttlHours⟩] },
        (handler db).2.1, (handler db).2.2, true⟩ := by
    simp [idempotencyMiddleware, IdempotencyService.checkAndGetResponse,
      IdempotencyService.storeKey, hget1, hfind, hvalid]
  refine ⟨by rw [hg1], ?_⟩
  have hget2 : IdempotencyService.getKey
      (idempotencyMiddleware db now (some k) body handler).db now2 k =
      some ⟨k, IdempotencyService.hashRequest body, (handler db).2.1,
        (handler db).2.2, now, now + IdempotencyService.ttlHours⟩ := by
    rw [hg1]
    unfold IdempotencyService.getKey
    show ((handler db).1.idempotency_keys ++ [_]).find? _ = _
    rw [find?_append_of_forall_not]
    · rw [List.find?_cons_of_pos]
      simp [hexp]
    · intro r hr
      rw [hhandler] at hr
      simp [hfresh r hr]
  rw [gate_hit _ now2 k body handler _ hget2 hvalid rfl, hg1]

def gateBody : Json :=
  .obj (.cons "walletId" (.str "w1") (.cons "amount" (.num 1000) .nil))

def gateHandler : DB → DB × Nat × Json := fun d => (d, 201, Json.null)

theorem gate_replay_witness :
    (idempotencyMiddleware DB.empty 0 (some "key-1") gateBody gateHandler).executed = true ∧
    idempotencyMiddleware
        (idempotencyMiddleware DB.empty 0 (some "key-1") gateBody gateHandler).db
        1 (some "key-1") gateBody gateHandler =
      ⟨(idempotencyMiddleware DB.empty 0 (some "key-1") gateBody gateHandler).db,
        (idempotencyMiddleware DB.empty 0 (some "key-1") gateBody gateHandler).status,
        (idempotencyMiddleware DB.empty 0 (some "key-1") gateBody gateHandler).body,
        false⟩ :=
  gate_replay DB.empty 0 1 "key-1" gateBody gateHandler
    (by simp [DB.empty]) rfl rfl (by decide)

/-! ## The request fingerprint and the conflict law (C8) -/

/-- Two materially different request bodies that differ only in a nested
object: the array-replacer form of `JSON.stringify` drops every nested
key that is not also a top-level key, so both serialize to the same
normalized string. -/
def bodyNested1 : Json := .obj (.cons "a" (.obj (.cons "x" (.num 1) .nil)) .nil)

def bodyNested2 : Json := .obj (.cons "a" (.obj (.cons "y" (.num 2) .nil)) .nil)

/-- Claim C8 fails on the code: the two distinct bodies above share one
request fingerprint, so reusing a key with the second (different) body is
NOT rejected with `IdempotencyKeyConflict` — the first response is
replayed as if the bodies were identical (the handler correctly does not
run, but no conflict is reported either). -/
theorem conflict_law_violated_on_nested_bodies :
    bodyNested1 ≠ bodyNested2 ∧
    IdempotencyService.hashRequest bodyNested1 =
      IdempotencyService.hashRequest bodyNested2 ∧
    (idempotencyMiddleware DB.empty 0 (some "key-1") bodyNested1 gateHandler).executed
      = true ∧
    idempotencyMiddleware
        (idempotencyMiddleware DB.empty 0 (some "key-1") bodyNested1 gateHandler).db
        1 (some "key-1") bodyNested2 gateHandler =
      ⟨(idempotencyMiddleware DB.empty 0 (some "key-1") bodyNested1 gateHandler).db,
        201, Json.null, false⟩ := by
  have hEq : IdempotencyService.hashRequest bodyNested1 =
      IdempotencyService.hashRequest bodyNested2 := by
    simp [IdempotencyService.hashRequest, bodyNested1, bodyNested2, Json.topKeys,
      JsonObj.keys, sortKeys, insertSorted, sha256Hex, stringifyWith,
      stringifyProps, stringifyArr, JsonObj.get, jsonQuote, jsonEscapeChar,
      String.join]
  have hg1 : idempotencyMiddleware DB.empty 0 (some "key-1") bodyNested1 gateHandler =
      ⟨⟨[], [], [], [⟨"key-1", IdempotencyService.hashRequest bodyNested1, 201,
          Json.null, 0, 24⟩], 0⟩, 201, Json.null, true⟩ := by
    have hval : validIdempotencyKey "key-1" = true := rfl
    simp [idempotencyMiddleware, IdempotencyService.checkAndGetResponse,
      IdempotencyService.storeKey, IdempotencyService.getKey, gateHandler,
      DB.empty, IdempotencyService.ttlHours, hval]
  refine ⟨by decide, hEq, by rw [hg1], ?_⟩
  have hget2 : IdempotencyService.getKey
      (idempotencyMiddleware DB.empty 0 (some "key-1") bodyNested1 gateHandler).db
      1 "key-1" =
      some ⟨"key-1", IdempotencyService.hashRequest bodyNested1, 201,
        Json.null, 0, 24⟩ := by
    rw [hg1]
    rfl
  rw [gate_hit _ 1 "key-1" bodyNested2 gateHandler _ hget2 rfl hEq, hg1]

/-! ## LedgerService.createEntry validation (C9) -/

/-- Claim C9: `createEntry` fails with `WalletNotFound` and writes
nothing when the wallet does not exist; a non-positive amount is
rejected (by the `CHECK (amount > 0)` constraint) with no row persisted;
otherwise — when additionally the optional external payment reference
does not collide with the `UNIQUE` constraint — exactly one new row is
appended (no existing row is touched) and returned with a generated id
and timestamp. -/
theorem createEntry_validates (db : DB) (now : Nat) (inp : CreateLedgerEntryInput) :
    (inp.wallet_id ∉ db.wallets →
      LedgerService.createEntry db now inp =
        (db, .error (.walletNotFound inp.wallet_id))) ∧
    (inp.amount ≤ 0 →
      (LedgerService.createEntry db now inp).1 = db ∧
      ∀ e, (LedgerService.createEntry db now inp).2 ≠ .ok e) ∧
    (inp.wallet_id ∈ db.wallets → 0 < inp.amount →
      ¬ (inp.external_payment_ref ≠ none ∧
          ∃ e ∈ db.entries, e.external_payment_ref = inp.external_payment_ref) →
      ∃ e : LedgerEntry,
        LedgerService.createEntry db now inp =
          ({ db with entries := db.entries ++ [e], nextId := db.nextId + 1 },
            .ok e) ∧
        e.id = genUuid db.nextId ∧ e.created_at = now ∧
        e.wallet_id = inp.wallet_id ∧ e.amount = inp.amount ∧
        e.direction = inp.direction ∧
        e.transaction_reference = inp.transaction_reference ∧
        e.transfer_id = inp.transfer_id ∧
        e.external_payment_ref = inp.external_payment_ref) := by
  refine ⟨?_, ?_, ?_⟩
  · intro h
    simp only [LedgerService.createEntry]
    rw [if_pos h]
  · intro h
    simp only [LedgerService.createEntry]
    by_cases hw : inp.wallet_id ∉ db.wallets
    · rw [if_pos hw]
      exact ⟨rfl, fun e => by simp⟩
    · rw [if_neg hw, if_pos h]
      exact ⟨rfl, fun e => by simp⟩
  · intro hw hpos hdup
    have hmain : LedgerService.createEntry db now inp =
        ({ db with entries := db.entries ++
                     [⟨genUuid db.nextId, inp.wallet_id, inp.amount, inp.direction,
                       inp.transaction_reference, inp.transfer_id,
                       inp.external_payment_ref, now⟩],
                   nextId := db.nextId + 1 },
          .ok ⟨genUuid db.nextId, inp.wallet_id, inp.amount, inp.direction,
            inp.transaction_reference, inp.transfer_id,
            inp.external_payment_ref, now⟩) := by
      simp only [LedgerService.createEntry]
      rw [if_neg (by simp [hw]), if_neg (by omega), if_neg hdup]
    exact ⟨_, hmain, rfl, rfl, rfl, rfl, rfl, rfl, rfl, rfl⟩

theorem createEntry_validates_witness :
    (LedgerService.createEntry sampleDB 3 ⟨"w9", 5, .credit, "t1", none, none⟩ =
      (sampleDB, .error (.walletNotFound "w9"))) ∧
    ((LedgerService.createEntry sampleDB 3 ⟨"w1", 0, .credit, "t1", none, none⟩).1 =
      sampleDB) ∧
    (∃ e : LedgerEntry,
      LedgerService.createEntry sampleDB 3 ⟨"w1", 5, .credit, "t1", none, none⟩ =
        ({ sampleDB with entries := sampleDB.entries ++ [e],
                         nextId := sampleDB.nextId + 1 }, .ok e) ∧
      e.id = genUuid sampleDB.nextId ∧ e.created_at = 3) := by
  refine ⟨?_, ?_, ?_⟩
  · exact (createEntry_validates sampleDB 3 ⟨"w9", 5, .credit, "t1", none, none⟩).1
      (by decide)
  · exact ((createEntry_validates sampleDB 3
      ⟨"w1", 0, .credit, "t1", none, none⟩).2.1 (by decide)).1
  · obtain ⟨e, h1, h2, h3, _⟩ := (createEntry_validates sampleDB 3
      ⟨"w1", 5, .credit, "t1", none, none⟩).2.2 (by decide) (by decide) (by decide)
    exact ⟨e, h1, h2, h3⟩

/-! ## WalletService.getBalance error identity (C10) -/

/-- Claim C10: the balance-read path raises `UserNotFoundError`
(HTTP 404, code `USER_NOT_FOUND`) for a missing wallet — not
`WalletNotFoundError`, although the missing entity is a wallet — and for
an existing wallet delegates to the ledger balance derivation. -/
theorem walletService_getBalance_user_not_found (db : DB) (w : String) :
    (w ∉ db.wallets →
      WalletService.getBalance db w = .error (UserNotFoundError (some w)) ∧
      (UserNotFoundError (some w)).code = "USER_NOT_FOUND" ∧
      (UserNotFoundError (some w)).statusCode = 404 ∧
      (UserNotFoundError (some w)).code ≠ (WalletNotFoundError (some w)).code) ∧
    (w ∈ db.wallets →
      WalletService.getBalance db w = .ok (LedgerService.getBalance db w)) := by
  constructor
  · intro h
    refine ⟨?_, rfl, rfl, by simp [UserNotFoundError, WalletNotFoundError]⟩
    simp only [WalletService.getBalance]
    rw [if_pos h]
  · intro h
    simp only [WalletService.getBalance]
    rw [if_neg (by simp [h])]

theorem walletService_getBalance_user_not_found_witness :
    WalletService.getBalance sampleDB "w9" = .error (UserNotFoundError (some "w9")) ∧
    WalletService.getBalance sampleDB "w1" = .ok (LedgerService.getBalance sampleDB "w1") :=
  ⟨((walletService_getBalance_user_not_found sampleDB "w9").1 (by decide)).1,
   (walletService_getBalance_user_not_found sampleDB "w1").2 (by decide)⟩
